import Mathlib

/-!
Shallow embedding of the polar-cli output rendering engine: the value
normalizers, field projector, flattener, format renderers and the output
dispatcher (src/output/compact.ts, fields.ts, table.ts, csv.ts, json.ts,
index.ts), together with theorems settling the specification claims.
-/

namespace Polar

/-- JSON-like runtime values, as the formatters receive them from the API
layer.  `vUndef` models JavaScript `undefined`, kept distinct from `null`. -/
inductive Value where
  | vNull
  | vUndef
  | vBool (b : Bool)
  | vNum (n : Int)
  | vStr (s : String)
  | vArr (elems : List Value)
  | vObj (fields : List (String × Value))

/-- A raw item: a JavaScript object, modelled as an insertion-ordered
association list (API objects have pairwise distinct keys). -/
abbrev Obj := List (String × Value)

/-- JavaScript `s.slice(0, n)`. -/
def jsSlice (s : String) (n : Nat) : String :=
  (s.toList.take n).asString

/-- JavaScript `Array.prototype.join(sep)` on a list of strings. -/
def jsJoin (sep : String) : List String → String
  | [] => ""
  | x :: xs => xs.foldl (fun acc y => acc ++ sep ++ y) x

/-- Does the object have the given own property (JavaScript `key in obj`)? -/
def hasKey (data : Obj) (key : String) : Bool :=
  data.any (fun p => p.1 = key)

/-- JavaScript property read `data[key]`: the bound value, or `undefined`
when the key is absent. -/
def jsGet (data : Obj) (key : String) : Value :=
  match data.lookup key with
  | some v => v
  | none => .vUndef

mutual

/-- JavaScript `String(v)` conversion.  Arrays stringify as their elements
joined by commas (null/undefined elements as empty), plain objects as
`[object Object]`. -/
def jsString : Value → String
  | .vNull => "null"
  | .vUndef => "undefined"
  | .vBool b => cond b "true" "false"
  | .vNum n => toString n
  | .vStr s => s
  | .vObj _ => "[object Object]"
  | .vArr xs => jsJoin "," (jsJoinParts xs)
termination_by structural v => v

/-- Element renderings used by `Array.prototype.toString`. -/
def jsJoinParts : List Value → List String
  | [] => []
  | .vNull :: vs => "" :: jsJoinParts vs
  | .vUndef :: vs => "" :: jsJoinParts vs
  | v :: vs => jsString v :: jsJoinParts vs
termination_by structural l => l

end

/-- Transliteration of the regex test
`/^\d{4}-\d{2}-\d{2}T\d{2}:\d{2}:\d{2}/` on the character list of a
string (shared `isISOTimestamp` helper of compact.ts, table.ts, csv.ts). -/
def isoTest : List Char → Bool
  | y1 :: y2 :: y3 :: y4 :: a1 :: mo1 :: mo2 :: a2 :: d1 :: d2 :: t ::
      h1 :: h2 :: b1 :: mi1 :: mi2 :: b2 :: se1 :: se2 :: _ =>
    y1.isDigit && y2.isDigit && y3.isDigit && y4.isDigit &&
    a1 == '-' && mo1.isDigit && mo2.isDigit &&
    a2 == '-' && d1.isDigit && d2.isDigit &&
    t == 'T' && h1.isDigit && h2.isDigit &&
    b1 == ':' && mi1.isDigit && mi2.isDigit &&
    b2 == ':' && se1.isDigit && se2.isDigit
  | _ => false

/-- `isISOTimestamp` of compact.ts / table.ts / csv.ts (string case; the
non-string guard is captured by callers matching on `Value.vStr`). -/
def isISOTimestamp (s : String) : Bool :=
  isoTest s.toList

/-- `compressTimestamp`: keep the date part only. -/
def compressTimestamp (s : String) : String :=
  jsSlice s 10

/-- compact.ts `MAX_STRING_LENGTH`. -/
def MAX_STRING_LENGTH : Nat := 80

/-- compact.ts `formatValue`: strings are truncated past 80 characters
(keeping the first 80 and appending an ellipsis) and quoted when they
contain a space; everything else goes through `String(value)`. -/
def formatValue (value : Value) : String :=
  match value with
  | .vStr s =>
    let t := if MAX_STRING_LENGTH < s.length then jsSlice s MAX_STRING_LENGTH ++ "..." else s
    if t.toList.contains ' ' then "\"" ++ t ++ "\"" else t
  | v => jsString v

/-- compact.ts path-building: `prefix ? prefix + "." + key : key`. -/
def mkFullKey (pre key : String) : String :=
  if pre = "" then key else pre ++ "." ++ key

mutual

/-- compact.ts `flattenObject`: depth-first pre-order expansion of nested
objects into dotted keys; the loop body per entry is `flattenEntry`. -/
def flattenObject : List (String × Value) → String → List (String × Value)
  | [], _ => []
  | (key, v) :: rest, pre =>
    flattenEntry (mkFullKey pre key) v ++ flattenObject rest pre
termination_by structural l _ => l

/-- The loop body of compact.ts `flattenObject` for one entry: null,
undefined and empty strings are dropped, arrays collapse to their length,
nested objects recurse under the dotted prefix, ISO timestamps are
compressed, all other values pass through. -/
def flattenEntry (fullKey : String) : Value → List (String × Value)
  | .vNull => []
  | .vUndef => []
  | .vArr xs => [(fullKey, .vNum (xs.length : Int))]
  | .vObj fs => flattenObject fs fullKey
  | .vStr s =>
    if s = "" then []
    else if isISOTimestamp s then [(fullKey, .vStr (compressTimestamp s))]
    else [(fullKey, .vStr s)]
  | .vBool b => [(fullKey, .vBool b)]
  | .vNum n => [(fullKey, .vNum n)]
termination_by structural v => v

end

/-- compact.ts `filterFields`: keep only flattened entries whose (dotted)
key occurs in the explicitly requested field list, if one was given. -/
def filterFields (entries : List (String × Value)) (fields : Option (List String)) :
    List (String × Value) :=
  match fields with
  | none => entries
  | some fs => entries.filter (fun e => fs.contains e.1)

/-- The `key=value` pair string shared by `formatCompactItem` and the item
lines of `formatCompactList`: flatten, filter, render, join by spaces. -/
def compactPairs (data : Obj) (fields : Option (List String)) : String :=
  jsJoin " " ((filterFields (flattenObject data "") fields).map
    (fun e => e.1 ++ "=" ++ formatValue e.2))

/-- compact.ts `formatCompactItem`. -/
def formatCompactItem (type : String) (data : Obj) (fields : Option (List String)) : String :=
  type ++ " " ++ compactPairs data fields

/-- Pagination metadata `{page, limit, totalCount}`. -/
structure PaginationMeta where
  page : Int
  limit : Int
  totalCount : Int

/-- compact.ts `ListData`. -/
structure ListData where
  items : List Obj
  pagination : PaginationMeta

/-- compact.ts `formatCompactList`: a `<type> 0/0` sentinel for an empty
result, otherwise a range header, one indexed line per item, and a `next:`
hint when further pages remain. -/
def formatCompactList (type : String) (data : ListData) (fields : Option (List String)) :
    String :=
  let page := data.pagination.page
  let limit := data.pagination.limit
  let totalCount := data.pagination.totalCount
  if totalCount = 0 ∧ data.items.length = 0 then
    type ++ " 0/0"
  else
    let rangeStart : Int := (page - 1) * limit + 1
    let rangeEnd : Int := rangeStart + (data.items.length : Int) - 1
    let header := type ++ " " ++ toString rangeStart ++ "-" ++ toString rangeEnd ++ "/" ++
      toString totalCount ++ " page=" ++ toString page
    let itemLines := data.items.enum.map (fun p =>
      "  [" ++ toString (p.1 + 1) ++ "] " ++ compactPairs p.2 fields)
    let lines := header :: itemLines
    let lines := if rangeEnd < totalCount then
        lines ++ ["next: polar " ++ type ++ " list --page " ++ toString (page + 1) ++
          " --limit " ++ toString limit]
      else lines
    jsJoin "\n" lines

/-- compact.ts `formatCompactCount`. -/
def formatCompactCount (count : Int) : String :=
  toString count

/-- fields.ts `FieldSelector`: explicit list, or the sentinels. -/
inductive FieldSelector where
  | list (fields : List String)
  | all
  | minimal

/-- fields.ts `RESOURCE_DEFAULT_FIELDS` registry. -/
def RESOURCE_DEFAULT_FIELDS : List (String × List String) := [
  ("organization", ["id", "name", "slug", "status"]),
  ("product", ["id", "name", "isRecurring", "isArchived", "prices", "benefits"]),
  ("subscription", ["id", "status", "customer", "product", "currentPeriodEnd", "amount", "currency"]),
  ("order", ["id", "status", "product", "customer", "totalAmount", "currency", "createdAt"]),
  ("customer", ["id", "email", "name", "type", "createdAt"]),
  ("checkout", ["id", "status", "products", "totalAmount", "currency", "url"]),
  ("checkoutLink", ["id", "label", "product", "url", "createdAt"]),
  ("benefit", ["id", "type", "description", "organizationId"]),
  ("benefitGrant", ["id", "benefitId", "customerId", "isGranted", "isRevoked"]),
  ("licenseKey", ["id", "displayKey", "status", "customer", "usage", "limitActivations"]),
  ("discount", ["id", "name", "type", "amount", "duration", "code"]),
  ("customField", ["id", "type", "slug", "name"]),
  ("file", ["id", "name", "mimeType", "size", "createdAt"]),
  ("refund", ["id", "status", "reason", "amount", "currency", "orderId"]),
  ("dispute", ["id", "status", "amount", "currency", "orderId"]),
  ("payment", ["id", "status", "amount", "currency", "method"]),
  ("meter", ["id", "name", "aggregation", "createdAt"]),
  ("customerMeter", ["id", "meterId", "customerId", "consumedUnits", "creditedUnits", "balance"]),
  ("event", ["id", "name", "source", "customerId", "timestamp"]),
  ("eventType", ["id", "name", "isArchived"]),
  ("webhook", ["id", "url", "events", "enabled"]),
  ("member", ["id", "email", "name", "role"]),
  ("orgToken", ["id", "comment", "scopes", "expiresAt"])]

/-- fields.ts `getDefaultFields`: registry lookup with `["id"]` fallback. -/
def getDefaultFields (resource : String) : List String :=
  match RESOURCE_DEFAULT_FIELDS.lookup resource with
  | some fs => fs
  | none => ["id"]

/-- Is the value JavaScript `null` or `undefined`? -/
def Value.isNullish : Value → Bool
  | .vNull => true
  | .vUndef => true
  | _ => false

/-- The fixed identifier priority list scanned by the `minimal` selector. -/
def identifiers : List String :=
  ["name", "email", "slug", "displayKey", "key", "url", "label"]

/-- JavaScript property assignment `obj[key] = v` on an insertion-ordered
object: updates in place when the key exists, appends otherwise. -/
def objSet (obj : Obj) (key : String) (v : Value) : Obj :=
  if hasKey obj key then obj.map (fun p => if p.1 = key then (key, v) else p)
  else obj ++ [(key, v)]

/-- fields.ts `selectFields`: shallow copy for `all`; `id` plus the first
present non-nullish identifier for `minimal`; presence-filtered copy in
selector order for an explicit list. -/
def selectFields (data : Obj) (fields : FieldSelector) : Obj :=
  match fields with
  | .all => data
  | .minimal =>
    let result : Obj := [("id", jsGet data "id")]
    match identifiers.find? (fun key => hasKey data key && !(jsGet data key).isNullish) with
    | some key => objSet result key (jsGet data key)
    | none => result
  | .list fs =>
    fs.foldl (fun result field =>
      if hasKey data field then objSet result field (jsGet data field) else result) []

/-- table.ts `MAX_VALUE_LENGTH`. -/
def MAX_VALUE_LENGTH : Nat := 40

/-- Whether a value is an ISO-timestamp string (the `isISOTimestamp`
guard, whose non-string branch returns false). -/
def isISOValue : Value → Bool
  | .vStr s => isISOTimestamp s
  | _ => false

/-- table.ts `formatCellValue`: empty for nullish, `[N]` for arrays, `id`
reference or `\x7bN keys\x7d` for objects, date compression for ISO strings,
and 40-character truncation for everything else. -/
def formatCellValue (value : Value) : String :=
  match value with
  | .vNull => ""
  | .vUndef => ""
  | .vArr xs => "[" ++ toString xs.length ++ "]"
  | .vObj fs =>
    if hasKey fs "id" then jsString (jsGet fs "id")
    else "\x7b" ++ toString fs.length ++ " keys\x7d"
  | v =>
    if isISOValue v then compressTimestamp (jsString v)
    else
      let str := jsString v
      if MAX_VALUE_LENGTH < str.length then jsSlice str (MAX_VALUE_LENGTH - 3) ++ "..."
      else str

/-- JavaScript `s.padEnd(w)` with spaces. -/
def jsPadEnd (s : String) (w : Nat) : String :=
  s ++ (List.replicate (w - s.length) ' ').asString

/-- `chalk.bold`: wrap in the ANSI bold open/close codes. -/
def chalkBold (s : String) : String :=
  "\x1b[1m" ++ s ++ "\x1b[22m"

/-- Column-name union across items in first-seen order (shared by
table.ts `formatTable` and csv.ts `formatCSV`). -/
def collectColumns (items : List Obj) : List String :=
  items.foldl (fun cols item =>
    item.foldl (fun cols p => if cols.contains p.1 then cols else cols ++ [p.1]) cols) []

/-- table.ts `formatTable`. -/
def formatTable (items : List Obj) (noColor : Bool) : String :=
  if items.length = 0 then "No results."
  else
    let useColor := !noColor
    let columns := collectColumns items
    let rows := items.map (fun item => columns.map (fun col => formatCellValue (jsGet item col)))
    let widths := columns.enum.map (fun p =>
      let maxData := rows.foldl (fun m row => max m (row.getD p.1 "").length) 0
      max p.2.length maxData)
    let header := jsJoin "  " (columns.enum.map (fun p => jsPadEnd p.2 (widths.getD p.1 0)))
    let separator := jsJoin "  " (widths.map (fun w => (List.replicate w '─').asString))
    let dataLines := rows.map (fun row =>
      jsJoin "  " (row.enum.map (fun p => jsPadEnd p.2 (widths.getD p.1 0))))
    if useColor then jsJoin "\n" (chalkBold header :: separator :: dataLines)
    else jsJoin "\n" (header :: separator :: dataLines)

/-- table.ts `formatTableItem`: vertical Key/Value listing. -/
def formatTableItem (type : String) (data : Obj) (noColor : Bool) : String :=
  let useColor := !noColor
  if data.length = 0 then "No " ++ type ++ " data."
  else
    let keyWidth := (data.map (fun p => p.1.length)).foldl max 0
    let separator := (List.replicate keyWidth '─').asString ++ "  " ++
      (List.replicate MAX_VALUE_LENGTH '─').asString
    let header := jsPadEnd "Key" keyWidth ++ "  " ++ "Value"
    let lines := data.map (fun p =>
      let paddedKey := jsPadEnd p.1 keyWidth
      let val := formatCellValue p.2
      if useColor then chalkBold paddedKey ++ "  " ++ val
      else paddedKey ++ "  " ++ val)
    if useColor then jsJoin "\n" (chalkBold header :: separator :: lines)
    else jsJoin "\n" (header :: separator :: lines)

/-- csv.ts `formatCellValue`: like the table one but without truncation.
(`Value` has no Date constructor, so the `instanceof Date` branch has no
counterpart here.) -/
def csvFormatCellValue (value : Value) : String :=
  match value with
  | .vNull => ""
  | .vUndef => ""
  | .vArr xs => "[" ++ toString xs.length ++ "]"
  | .vObj fs =>
    if hasKey fs "id" then jsString (jsGet fs "id")
    else "\x7b" ++ toString fs.length ++ " keys\x7d"
  | v => if isISOValue v then compressTimestamp (jsString v) else jsString v

/-- JavaScript `value.replace(/"/g, string of two quotes)`. -/
def doubleQuotes (s : String) : String :=
  String.join (s.toList.map (fun c => if c = '"' then "\"\"" else String.singleton c))

/-- JavaScript `s.includes(sub)`: substring containment. -/
def jsIncludes (s sub : String) : Bool :=
  decide (sub.toList <:+: s.toList)

/-- csv.ts `escapeCell`: RFC-4180-style quoting when the cell contains the
delimiter, a newline, or a double quote. -/
def escapeCell (value : String) (delimiter : String) : String :=
  if jsIncludes value delimiter || value.toList.contains '\n' || value.toList.contains '"' then
    "\"" ++ doubleQuotes value ++ "\""
  else value

/-- csv.ts `formatCSV` (the `,` default delimiter is passed explicitly at
call sites here). -/
def formatCSV (items : List Obj) (delimiter : String) : String :=
  if items.length = 0 then ""
  else
    let columns := collectColumns items
    let header := jsJoin delimiter (columns.map (fun col => escapeCell col delimiter))
    let rows := items.map (fun item =>
      jsJoin delimiter (columns.map (fun col =>
        escapeCell (csvFormatCellValue (jsGet item col)) delimiter)))
    jsJoin "\n" (header :: rows)

/-- csv.ts `formatTSV`. -/
def formatTSV (items : List Obj) : String :=
  formatCSV items "\t"

/-- Lower-case hexadecimal digit. -/
def hexDigit (n : Nat) : Char :=
  if n < 10 then Char.ofNat (48 + n) else Char.ofNat (87 + n)

/-- One character of `JSON.stringify` string escaping. -/
def jsonEscapeChar (c : Char) : String :=
  if c = '"' then "\\\""
  else if c = '\\' then "\\\\"
  else if c = '\x08' then "\\b"
  else if c = '\x09' then "\\t"
  else if c = '\x0a' then "\\n"
  else if c = '\x0c' then "\\f"
  else if c = '\x0d' then "\\r"
  else if c.toNat < 32 then
    "\\u00" ++ String.singleton (hexDigit (c.toNat / 16)) ++ String.singleton (hexDigit (c.toNat % 16))
  else String.singleton c

/-- `JSON.stringify` quoting of a string. -/
def jsonQuote (s : String) : String :=
  "\"" ++ String.join (s.toList.map jsonEscapeChar) ++ "\""

mutual

/-- Minified `JSON.stringify`.  Undefined object entries are dropped;
undefined array elements serialize as `null` (as does a bare `undefined`
argument, a case the dispatcher never produces). -/
def jsonStringify : Value → String
  | .vNull => "null"
  | .vUndef => "null"
  | .vBool b => cond b "true" "false"
  | .vNum n => toString n
  | .vStr s => jsonQuote s
  | .vArr xs => "[" ++ jsJoin "," (jsonArrayParts xs) ++ "]"
  | .vObj fs => "\x7b" ++ jsJoin "," (jsonObjParts fs) ++ "\x7d"
termination_by structural v => v

/-- Array element serializations for `JSON.stringify`. -/
def jsonArrayParts : List Value → List String
  | [] => []
  | v :: vs => jsonStringify v :: jsonArrayParts vs
termination_by structural l => l

/-- Object entry serializations for `JSON.stringify` (undefined dropped). -/
def jsonObjParts : List (String × Value) → List String
  | [] => []
  | (_, .vUndef) :: rest => jsonObjParts rest
  | (k, v) :: rest => (jsonQuote k ++ ":" ++ jsonStringify v) :: jsonObjParts rest
termination_by structural l => l

end

/-- json.ts `formatJSON`. -/
def formatJSON (data : Value) : String :=
  jsonStringify data

/-- json.ts `formatJSONL`. -/
def formatJSONL (items : List Obj) : String :=
  jsJoin "\n" (items.map (fun item => jsonStringify (.vObj item)))

/-- json.ts `formatJSONList`: wrap as `\x7b items, pagination \x7d`. -/
def formatJSONList (items : List Obj) (pagination : PaginationMeta) : String :=
  jsonStringify (.vObj [("items", .vArr (items.map Value.vObj)),
    ("pagination", .vObj [("page", .vNum pagination.page), ("limit", .vNum pagination.limit),
      ("totalCount", .vNum pagination.totalCount)])])

/-- index.ts `OutputFormat`. -/
inductive OutputFormat where
  | table
  | compact
  | json
  | jsonl
  | csv
  | tsv
  | id
  | count
deriving DecidableEq

/-- index.ts `OutputOptions`. -/
structure OutputOptions where
  format : OutputFormat
  fields : Option (List String)
  detail : Bool
  quiet : Bool
  noColor : Bool

/-- Element rendering of `Array.prototype.join`: null/undefined become
empty, other values go through `String(v)`. -/
def jsElemString : Value → String
  | .vNull => ""
  | .vUndef => ""
  | v => jsString v

/-- index.ts `formatList`: project every item with the explicit or default
field list; machine-exact formats receive the raw items unless fields were
explicitly supplied; table/compact always receive the projected items. -/
def formatList (resourceType : String) (items : List Obj) (pagination : PaginationMeta)
    (options : OutputOptions) : String :=
  let defaultFields := getDefaultFields resourceType
  let fieldSelector : FieldSelector :=
    match options.fields with
    | some fs => .list fs
    | none => .list defaultFields
  let filtered := items.map (fun item => selectFields item fieldSelector)
  let useFiltered := options.fields.isSome
  match options.format with
  | .count => formatCompactCount pagination.totalCount
  | .id => jsJoin "\n" (items.map (fun item => jsElemString (jsGet item "id")))
  | .json => formatJSONList (if useFiltered then filtered else items) pagination
  | .jsonl => formatJSONL (if useFiltered then filtered else items)
  | .csv => formatCSV (if useFiltered then filtered else items) ","
  | .tsv => formatTSV (if useFiltered then filtered else items)
  | .table => formatTable filtered options.noColor
  | .compact => formatCompactList resourceType ⟨filtered, pagination⟩ options.fields

/-- The effective selector computed at the top of index.ts `formatItem`:
`options.detail ? "all" : (options.fields ?? getDefaultFields(type))`. -/
def itemFieldSelector (resourceType : String) (options : OutputOptions) : FieldSelector :=
  if options.detail then .all
  else
    match options.fields with
    | some fs => .list fs
    | none => .list (getDefaultFields resourceType)

/-- index.ts `formatItem`.  Its dispatch switch has no `jsonl` or `count`
branch, so those formats reach the compact default. -/
def formatItem (resourceType : String) (data : Obj) (options : OutputOptions) : String :=
  let filtered := selectFields data (itemFieldSelector resourceType options)
  match options.format with
  | .id =>
    (match jsGet data "id" with
     | .vNull => ""
     | .vUndef => ""
     | v => jsString v)
  | .json => formatJSON (.vObj (if options.fields.isSome || options.detail then filtered else data))
  | .csv => formatCSV [filtered] ","
  | .tsv => formatTSV [filtered]
  | .table => formatTableItem resourceType filtered options.noColor
  | _ => formatCompactItem resourceType filtered none

example : formatCSV [[("id", .vStr "a"), ("name", .vStr "Plan, Pro")]] ","
    = "id,name\na,\"Plan, Pro\"" := by decide

example : selectFields [("id", .vStr "x"), ("name", .vNull), ("email", .vStr "e")] .minimal
    = [("id", .vStr "x"), ("email", .vStr "e")] := rfl

example : formatList "products" [[("id", .vStr "p1"), ("extra", .vStr "x")]] ⟨1, 10, 1⟩
    ⟨.csv, none, false, false, false⟩ = "id,extra\np1,x" := by decide

example : formatItem "organization" [("id", .vStr "a"), ("extra", .vStr "x")]
    ⟨.csv, none, false, false, false⟩ = "id\na" := by decide

example : formatItem "product" [("id", .vStr "prod_123"), ("name", .vStr "Pro Plan")]
    ⟨.jsonl, none, false, false, false⟩ = "product id=prod_123 name=\"Pro Plan\"" := by decide

example : formatJSONList [[("id", .vStr "a")]] ⟨1, 10, 1⟩
    = "\x7b\"items\":[\x7b\"id\":\"a\"\x7d],\"pagination\":\x7b\"page\":1,\"limit\":10,\"totalCount\":1\x7d\x7d" := by
  decide

example : formatCompactItem "product"
    [("id", .vStr "prod_123"), ("name", .vStr "Pro Plan"), ("isRecurring", .vBool true)] none
    = "product id=prod_123 name=\"Pro Plan\" isRecurring=true" := by decide

example : formatCompactList "products"
    ⟨[[("id", .vStr "prod_123"), ("name", .vStr "Pro Plan"), ("isRecurring", .vBool true)],
      [("id", .vStr "prod_456"), ("name", .vStr "Starter"), ("isRecurring", .vBool false)]],
      ⟨1, 10, 2⟩⟩ none
    = "products 1-2/2 page=1\n  [1] id=prod_123 name=\"Pro Plan\" isRecurring=true\n  [2] id=prod_456 name=Starter isRecurring=false" := by decide

example : formatCompactList "products" ⟨[], ⟨1, 10, 0⟩⟩ none = "products 0/0" := by decide

example : formatCompactList "products" ⟨[[("id", .vStr "prod_123")]], ⟨1, 1, 5⟩⟩ none
    = "products 1-1/5 page=1\n  [1] id=prod_123\nnext: polar products list --page 2 --limit 1" := by
  decide

example : formatCompactItem "order" [("id", .vStr "ord_1"), ("createdAt", .vStr "2024-01-15T10:30:00.000Z")] none
    = "order id=ord_1 createdAt=2024-01-15" := by decide

theorem jsJoin_foldl_append (sep a b : String) (ys : List String) :
    ys.foldl (fun acc y => acc ++ sep ++ y) (a ++ b) =
      a ++ ys.foldl (fun acc y => acc ++ sep ++ y) b := by
  induction ys generalizing b with
  | nil => rfl
  | cons y ys ih =>
    simp only [List.foldl_cons]
    rw [String.append_assoc a b sep, String.append_assoc a (b ++ sep) y, ih]

theorem jsJoin_cons_cons (sep x y : String) (ys : List String) :
    jsJoin sep (x :: y :: ys) = x ++ sep ++ jsJoin sep (y :: ys) :=
  jsJoin_foldl_append sep (x ++ sep) y ys

theorem jsJoin_cons_of_ne_nil (sep x : String) (xs : List String) (h : xs ≠ []) :
    jsJoin sep (x :: xs) = x ++ sep ++ jsJoin sep xs := by
  cases xs with
  | nil => exact absurd rfl h
  | cons y ys => exact jsJoin_cons_cons sep x y ys

theorem compactList_layout (type : String) (items : List Obj) (page limit totalCount : Int)
    (fields : Option (List String)) (h : ¬(totalCount = 0 ∧ items.length = 0)) :
    formatCompactList type ⟨items, ⟨page, limit, totalCount⟩⟩ fields =
      jsJoin "\n"
        ((type ++ " " ++ toString ((page - 1) * limit + 1) ++ "-" ++
            toString ((page - 1) * limit + 1 + (items.length : Int) - 1) ++ "/" ++
            toString totalCount ++ " page=" ++ toString page) ::
          (items.enum.map (fun p => "  [" ++ toString (p.1 + 1) ++ "] " ++ compactPairs p.2 fields) ++
          (if (page - 1) * limit + 1 + (items.length : Int) - 1 < totalCount then
            ["next: polar " ++ type ++ " list --page " ++ toString (page + 1) ++ " --limit " ++
              toString limit]
          else []))) := by
  simp only [formatCompactList]
  rw [if_neg h]
  by_cases hm : (page - 1) * limit + 1 + (items.length : Int) - 1 < totalCount
  · rw [if_pos hm, if_pos hm, List.cons_append]
  · rw [if_neg hm, if_neg hm, List.append_nil]

/-- C1: in compact list format, unless `totalCount = 0` and no items were
returned, the first line is `"<plural> <start>-<end>/<totalCount>
page=<page>"` with `start = (page-1)*limit + 1` and
`end = start + n - 1`, and a trailing
`"next: polar <plural> list --page <page+1> --limit <limit>"` line is
present exactly when `end < totalCount`. -/
theorem C1_compact_list_header_and_next (type : String) (items : List Obj)
    (page limit totalCount : Int) (fields : Option (List String))
    (h : ¬(totalCount = 0 ∧ items.length = 0)) :
    formatCompactList type ⟨items, ⟨page, limit, totalCount⟩⟩ fields =
      jsJoin "\n"
        ([type ++ " " ++ toString ((page - 1) * limit + 1) ++ "-" ++
            toString ((page - 1) * limit + 1 + (items.length : Int) - 1) ++ "/" ++
            toString totalCount ++ " page=" ++ toString page] ++
          items.enum.map (fun p => "  [" ++ toString (p.1 + 1) ++ "] " ++ compactPairs p.2 fields) ++
          (if (page - 1) * limit + 1 + (items.length : Int) - 1 < totalCount then
            ["next: polar " ++ type ++ " list --page " ++ toString (page + 1) ++ " --limit " ++
              toString limit]
          else [])) := by
  rw [compactList_layout type items page limit totalCount fields h]
  rw [List.singleton_append, List.cons_append]

/-- C1 witness: the spec's own middle-page scenario, `page=3 limit=3
totalCount=25` with 3 returned customers. -/
theorem C1_witness :
    formatCompactList "customers"
        ⟨[[("id", .vStr "cust_1")], [("id", .vStr "cust_2")], [("id", .vStr "cust_3")]],
          ⟨3, 3, 25⟩⟩ none
      = "customers 7-9/25 page=3\n  [1] id=cust_1\n  [2] id=cust_2\n  [3] id=cust_3\nnext: polar customers list --page 4 --limit 3" :=
  (C1_compact_list_header_and_next "customers"
    [[("id", .vStr "cust_1")], [("id", .vStr "cust_2")], [("id", .vStr "cust_3")]]
    3 3 25 none (by decide)).trans (by decide)

/-- C2 counterexample: `formatItem` in csv format with no explicit fields
and no detail does NOT pass the raw item through — it renders the
projection onto the resource's default fields, dropping `extra`. -/
theorem C2_counterexample :
    formatItem "organization" [("id", .vStr "a"), ("extra", .vStr "x")]
        ⟨.csv, none, false, false, false⟩ ≠
      formatCSV [[("id", .vStr "a"), ("extra", .vStr "x")]] "," := by
  decide

/-- C2 amended: `formatList` passes the raw items through for
json/jsonl/csv/tsv whenever `fields` was not supplied (while table and
compact always receive the projected items); `formatItem` mirrors the
carve-out only for json — its csv/tsv branches always render the
projected item, and jsonl falls through to the compact item renderer. -/
theorem C2_amended_machine_format_projection (rt : String) (items : List Obj)
    (pagination : PaginationMeta) (data : Obj) :
    (formatList rt items pagination ⟨.json, none, false, false, false⟩ =
        formatJSONList items pagination) ∧
    (formatList rt items pagination ⟨.jsonl, none, false, false, false⟩ =
        formatJSONL items) ∧
    (formatList rt items pagination ⟨.csv, none, false, false, false⟩ =
        formatCSV items ",") ∧
    (formatList rt items pagination ⟨.tsv, none, false, false, false⟩ =
        formatTSV items) ∧
    (formatList rt items pagination ⟨.table, none, false, false, false⟩ =
        formatTable (items.map (fun item => selectFields item (.list (getDefaultFields rt)))) false) ∧
    (formatList rt items pagination ⟨.compact, none, false, false, false⟩ =
        formatCompactList rt
          ⟨items.map (fun item => selectFields item (.list (getDefaultFields rt))), pagination⟩
          none) ∧
    (formatItem rt data ⟨.json, none, false, false, false⟩ = formatJSON (.vObj data)) ∧
    (formatItem rt data ⟨.csv, none, false, false, false⟩ =
        formatCSV [selectFields data (.list (getDefaultFields rt))] ",") ∧
    (formatItem rt data ⟨.tsv, none, false, false, false⟩ =
        formatTSV [selectFields data (.list (getDefaultFields rt))]) ∧
    (formatItem rt data ⟨.jsonl, none, false, false, false⟩ =
        formatCompactItem rt (selectFields data (.list (getDefaultFields rt))) none) :=
  ⟨rfl, rfl, rfl, rfl, rfl, rfl, rfl, rfl, rfl, rfl⟩

/-- C9: each renderer's empty-collection result: `formatTable` returns
`"No results."`, `formatCSV` returns the empty string (no header row),
and the compact list renderer with zero total and zero items returns
exactly `"<plural> 0/0"`. -/
theorem C9_empty_state_strings :
    (∀ noColor, formatTable [] noColor = "No results.") ∧
    (∀ delim, formatCSV [] delim = "") ∧
    (∀ (type : String) (page limit : Int) (fields : Option (List String)),
      formatCompactList type ⟨[], ⟨page, limit, 0⟩⟩ fields = type ++ " 0/0") := by
  refine ⟨fun _ => rfl, fun _ => rfl, fun type page limit fields => ?_⟩
  simp [formatCompactList]

/-- C10: `formatItem` invoked with the jsonl or count format reaches the
compact default branch of the dispatch switch and returns the compact
rendering of the projected item (shown to differ from the JSON line at a
sample input). -/
theorem C10_item_jsonl_count_fallthrough (rt : String) (data : Obj)
    (fields : Option (List String)) (detail quiet noColor : Bool) :
    (formatItem rt data ⟨.jsonl, fields, detail, quiet, noColor⟩ =
        formatCompactItem rt
          (selectFields data (itemFieldSelector rt ⟨.jsonl, fields, detail, quiet, noColor⟩)) none) ∧
    (formatItem rt data ⟨.count, fields, detail, quiet, noColor⟩ =
        formatCompactItem rt
          (selectFields data (itemFieldSelector rt ⟨.count, fields, detail, quiet, noColor⟩)) none) ∧
    formatItem "product" [("id", .vStr "p")] ⟨.jsonl, none, false, false, false⟩ ≠
      formatJSONL [[("id", .vStr "p")]] :=
  ⟨rfl, rfl, by decide⟩

theorem hasKey_append (a b : Obj) (key : String) :
    hasKey (a ++ b) key = (hasKey a key || hasKey b key) := by
  simp [hasKey, List.any_append]

theorem objSet_of_hasKey_eq_false (obj : Obj) (key : String) (v : Value)
    (h : hasKey obj key = false) : objSet obj key v = obj ++ [(key, v)] := by
  simp [objSet, h]

theorem selectList_foldl (data : Obj) (fs : List String) :
    ∀ acc : Obj, fs.Nodup → (∀ f ∈ fs, hasKey acc f = false) →
      fs.foldl (fun result field =>
          if hasKey data field then objSet result field (jsGet data field) else result) acc =
        acc ++ fs.filterMap (fun f =>
          if hasKey data f then some (f, jsGet data f) else none) := by
  induction fs with
  | nil => intro acc _ _; simp
  | cons f fs ih =>
    intro acc hnd hacc
    simp only [List.foldl_cons, List.filterMap_cons]
    by_cases hk : hasKey data f = true
    · rw [if_pos hk, if_pos hk,
        objSet_of_hasKey_eq_false acc f _ (hacc f (List.mem_cons_self f fs))]
      rw [ih (acc ++ [(f, jsGet data f)]) hnd.of_cons ?fresh]
      case fresh =>
        intro g hg
        rw [hasKey_append, hacc g (List.mem_cons_of_mem f hg)]
        have hne : f ≠ g := fun hfg => (List.nodup_cons.mp hnd).1 (hfg ▸ hg)
        simp [hasKey, hne]
      rw [List.append_assoc]
      rfl
    · rw [if_neg hk, if_neg hk]
      exact ih acc hnd.of_cons (fun g hg => hacc g (List.mem_cons_of_mem f hg))

theorem mapFst_filterMap_present (data : Obj) (fs : List String) :
    (fs.filterMap (fun f =>
        if hasKey data f then some (f, jsGet data f) else none)).map Prod.fst =
      fs.filter (fun f => hasKey data f) := by
  induction fs with
  | nil => rfl
  | cons f fs ih =>
    simp only [List.filterMap_cons, List.filter_cons]
    by_cases hk : hasKey data f = true
    · rw [if_pos hk, if_pos hk, List.map_cons, ih]
    · rw [if_neg hk, if_neg hk, ih]

/-- C6: projecting with an explicit field-name list yields exactly the
listed names that pass the presence check on the item, in list order,
each bound to the item's original value (nullish values included); names
absent from the item are silently skipped.  (Totality is inherent: the
embedding is a total function.) -/
theorem C6_selectFields_explicit_list (data : Obj) (fs : List String) (h : fs.Nodup) :
    selectFields data (.list fs) =
      fs.filterMap (fun f => if hasKey data f then some (f, jsGet data f) else none) ∧
    (selectFields data (.list fs)).map Prod.fst = fs.filter (fun f => hasKey data f) := by
  have hmain : selectFields data (.list fs) =
      fs.filterMap (fun f => if hasKey data f then some (f, jsGet data f) else none) := by
    have hfold := selectList_foldl data fs [] h (fun f _ => rfl)
    simpa [selectFields] using hfold
  exact ⟨hmain, by rw [hmain]; exact mapFst_filterMap_present data fs⟩

/-- C6 witness: a concrete projection keeping an explicit-null field,
reordering to selector order, and skipping the absent name `"c"`. -/
theorem C6_witness :
    selectFields [("a", .vNull), ("b", .vNum 1)] (.list ["b", "a", "c"]) =
        [("b", .vNum 1), ("a", .vNull)] ∧
    (selectFields [("a", .vNull), ("b", .vNum 1)] (.list ["b", "a", "c"])).map Prod.fst =
        ["b", "a"] := by
  have h := C6_selectFields_explicit_list [("a", .vNull), ("b", .vNum 1)] ["b", "a", "c"]
    (by decide)
  exact ⟨h.1.trans rfl, h.2.trans (by decide)⟩

/-- C7: the `minimal` selector always yields `id` first (bound to the
item's `id` value, `undefined` when absent) plus at most one further key,
namely the first entry of the fixed priority list present with a
non-nullish value; the result never exceeds 2 keys. -/
theorem C7_selectFields_minimal (data : Obj) :
    (selectFields data .minimal).length ≤ 2 ∧
    (selectFields data .minimal).head? = some ("id", jsGet data "id") ∧
    (∀ p ∈ (selectFields data .minimal).tail,
      identifiers.find? (fun key => hasKey data key && !(jsGet data key).isNullish) = some p.1 ∧
      p.2 = jsGet data p.1) := by
  cases hfind : identifiers.find? (fun key => hasKey data key && !(jsGet data key).isNullish) with
  | none =>
    have hres : selectFields data .minimal = [("id", jsGet data "id")] := by
      simp [selectFields, hfind]
    rw [hres]
    simp
  | some key =>
    have hmem : key ∈ identifiers := List.mem_of_find?_eq_some hfind
    have hne : key ≠ "id" := by
      simp only [identifiers, List.mem_cons, List.not_mem_nil, or_false] at hmem
      rcases hmem with rfl | rfl | rfl | rfl | rfl | rfl | rfl <;> decide
    have hk : hasKey [("id", jsGet data "id")] key = false := by
      simp only [hasKey, List.any_cons, List.any_nil, Bool.or_false, decide_eq_false_iff_not]
      exact fun hid => hne hid.symm
    have hres : selectFields data .minimal =
        [("id", jsGet data "id"), (key, jsGet data key)] := by
      simp [selectFields, hfind,
        objSet_of_hasKey_eq_false [("id", jsGet data "id")] key (jsGet data key) hk]
    rw [hres]
    refine ⟨by simp, rfl, fun p hp => ?_⟩
    simp only [List.tail_cons, List.mem_singleton] at hp
    subst hp
    exact ⟨rfl, rfl⟩

/-- C7 witness: an item whose first present non-nullish identifier is
`email` (its `name` being null is skipped). -/
theorem C7_witness :
    (selectFields [("id", .vStr "x"), ("name", .vNull), ("email", .vStr "e")] .minimal).length ≤ 2 ∧
    (selectFields [("id", .vStr "x"), ("name", .vNull), ("email", .vStr "e")] .minimal).head? =
      some ("id", jsGet [("id", .vStr "x"), ("name", .vNull), ("email", .vStr "e")] "id") ∧
    (∀ p ∈ (selectFields [("id", .vStr "x"), ("name", .vNull), ("email", .vStr "e")] .minimal).tail,
      identifiers.find? (fun key =>
          hasKey [("id", .vStr "x"), ("name", .vNull), ("email", .vStr "e")] key &&
          !(jsGet [("id", .vStr "x"), ("name", .vNull), ("email", .vStr "e")] key).isNullish) =
        some p.1 ∧
      p.2 = jsGet [("id", .vStr "x"), ("name", .vNull), ("email", .vStr "e")] p.1) :=
  C7_selectFields_minimal [("id", .vStr "x"), ("name", .vNull), ("email", .vStr "e")]

/-- C8: a CSV/TSV cell is quoted (with interior quotes doubled) exactly
when it contains the delimiter, a newline, or a double quote; the header
row is emitted for every non-empty item list; and the spec's concrete
example renders as stated. -/
theorem C8_csv_quoting_and_header :
    (∀ value delimiter, escapeCell value delimiter =
        if jsIncludes value delimiter || value.toList.contains '\n' ||
            value.toList.contains '"' then
          "\"" ++ doubleQuotes value ++ "\""
        else value) ∧
    (∀ (items : List Obj) (delimiter : String), items ≠ [] →
        formatCSV items delimiter =
          jsJoin delimiter ((collectColumns items).map (fun col => escapeCell col delimiter)) ++
            "\n" ++
            jsJoin "\n" (items.map (fun item =>
              jsJoin delimiter ((collectColumns items).map (fun col =>
                escapeCell (csvFormatCellValue (jsGet item col)) delimiter))))) ∧
    formatCSV [[("id", .vStr "a"), ("name", .vStr "Plan, Pro")]] "," =
      "id,name\na,\"Plan, Pro\"" := by
  refine ⟨fun value delimiter => rfl, fun items delimiter h => ?_, by decide⟩
  unfold formatCSV
  rw [if_neg (by simpa using h)]
  cases items with
  | nil => exact absurd rfl h
  | cons it its => exact jsJoin_cons_of_ne_nil "\n" _ _ (by simp)

/-- C8 witness: header row present even for a single-row result. -/
theorem C8_witness : formatCSV [[("id", .vStr "a")]] "," = "id\na" :=
  (C8_csv_quoting_and_header.2.1 [[("id", .vStr "a")]] "," (List.cons_ne_nil _ _)).trans
    (by decide)

theorem length_jsSlice (s : String) (n : Nat) : (jsSlice s n).length = min n s.length :=
  List.length_take n s.data

theorem contains_eq_false_of_not_mem {c : Char} {l : List Char} (h : c ∉ l) :
    l.contains c = false := by
  cases hb : l.contains c with
  | false => rfl
  | true => exact absurd (List.mem_of_elem_eq_true hb) h

theorem not_mem_of_contains_eq_false {c : Char} {l : List Char} (h : l.contains c = false) :
    c ∉ l := by
  intro hm
  have ht : l.contains c = true := List.elem_eq_true_of_mem hm
  rw [ht] at h
  cases h

/-- C4 counterexample: an 81-character string renders in compact format as
its first 80 characters plus the ellipsis — 83 characters, not 80, and
not the first 77 characters plus the ellipsis. -/
theorem C4_counterexample :
    formatValue (.vStr (String.mk (List.replicate 81 'a'))) =
        String.mk (List.replicate 80 'a') ++ "..." ∧
    (formatValue (.vStr (String.mk (List.replicate 81 'a')))).length = 83 ∧
    formatValue (.vStr (String.mk (List.replicate 81 'a'))) ≠
      jsSlice (String.mk (List.replicate 81 'a')) 77 ++ "..." :=
  ⟨by decide, by decide, by decide⟩

/-- C4 amended: a table cell truncates any non-ISO-timestamp string
longer than 40 characters to its first 37 characters plus `"..."`
(exactly 40 characters); the compact normalizer instead keeps the first
80 characters of any string longer than 80 and appends `"..."`
(83 characters when no space-quoting applies). -/
theorem C4_amended_truncation :
    (∀ s : String, 40 < s.length → isISOTimestamp s = false →
      formatCellValue (.vStr s) = jsSlice s 37 ++ "..." ∧
      (formatCellValue (.vStr s)).length = 40) ∧
    (∀ s : String, 80 < s.length →
      formatValue (.vStr s) =
        (if (jsSlice s 80 ++ "...").toList.contains ' ' then
          "\"" ++ (jsSlice s 80 ++ "...") ++ "\""
        else jsSlice s 80 ++ "...") ∧
      (s.toList.contains ' ' = false → (formatValue (.vStr s)).length = 83)) := by
  constructor
  · intro s h40 hiso
    have hcell : formatCellValue (.vStr s) = jsSlice s 37 ++ "..." := by
      simp [formatCellValue, isISOValue, hiso, jsString, MAX_VALUE_LENGTH, if_pos h40]
    refine ⟨hcell, ?_⟩
    rw [hcell, String.length_append, length_jsSlice]
    have h37 : (37 : Nat) ≤ s.length := by omega
    rw [Nat.min_eq_left h37]
    decide
  · intro s h80
    have hval : formatValue (.vStr s) =
        (if (jsSlice s 80 ++ "...").toList.contains ' ' then
          "\"" ++ (jsSlice s 80 ++ "...") ++ "\""
        else jsSlice s 80 ++ "...") := by
      simp only [formatValue, MAX_STRING_LENGTH, if_pos h80]
    refine ⟨hval, fun hsp => ?_⟩
    have hnot : ' ' ∉ s.data := not_mem_of_contains_eq_false hsp
    have hts : (jsSlice s 80 ++ "...").toList.contains ' ' = false := by
      apply contains_eq_false_of_not_mem
      intro hm
      rcases List.mem_append.mp hm with hm | hm
      · exact hnot (List.take_subset 80 s.data hm)
      · simp at hm
    rw [hval, if_neg (by rw [hts]; exact Bool.false_ne_true)]
    rw [String.length_append, length_jsSlice]
    have h80le : (80 : Nat) ≤ s.length := by omega
    rw [Nat.min_eq_left h80le]
    decide

/-- C4 witness: table truncation at a concrete 41-character string (just
past the 40 threshold) and compact truncation at a concrete 81-character
space-free string. -/
theorem C4_witness :
    (formatCellValue (.vStr (String.mk (List.replicate 41 'a'))) =
        jsSlice (String.mk (List.replicate 41 'a')) 37 ++ "..." ∧
      (formatCellValue (.vStr (String.mk (List.replicate 41 'a')))).length = 40) ∧
    (formatValue (.vStr (String.mk (List.replicate 81 'a'))) =
        (if (jsSlice (String.mk (List.replicate 81 'a')) 80 ++ "...").toList.contains ' ' then
          "\"" ++ (jsSlice (String.mk (List.replicate 81 'a')) 80 ++ "...") ++ "\""
        else jsSlice (String.mk (List.replicate 81 'a')) 80 ++ "...") ∧
      ((String.mk (List.replicate 81 'a')).toList.contains ' ' = false →
        (formatValue (.vStr (String.mk (List.replicate 81 'a')))).length = 83)) :=
  ⟨C4_amended_truncation.1 (String.mk (List.replicate 41 'a')) (by decide) (by decide),
   C4_amended_truncation.2 (String.mk (List.replicate 81 'a')) (by decide)⟩

/-- Scalar classifier used to state the idempotence property: everything
except arrays and objects. -/
def Value.isScalar : Value → Bool
  | .vArr _ => false
  | .vObj _ => false
  | _ => true

theorem isoTest_take19 (l : List Char) : isoTest l = isoTest (l.take 19) := by
  rcases l with _ | ⟨c1, _ | ⟨c2, _ | ⟨c3, _ | ⟨c4, _ | ⟨c5, _ | ⟨c6, _ | ⟨c7, _ | ⟨c8, _ |
    ⟨c9, _ | ⟨c10, _ | ⟨c11, _ | ⟨c12, _ | ⟨c13, _ | ⟨c14, _ | ⟨c15, _ | ⟨c16, _ | ⟨c17, _ |
    ⟨c18, _ | ⟨c19, rest⟩⟩⟩⟩⟩⟩⟩⟩⟩⟩⟩⟩⟩⟩⟩⟩⟩⟩⟩ <;> rfl

theorem isoTest_false_of_short (l : List Char) (h : l.length < 19) : isoTest l = false := by
  rcases l with _ | ⟨c1, _ | ⟨c2, _ | ⟨c3, _ | ⟨c4, _ | ⟨c5, _ | ⟨c6, _ | ⟨c7, _ | ⟨c8, _ |
    ⟨c9, _ | ⟨c10, _ | ⟨c11, _ | ⟨c12, _ | ⟨c13, _ | ⟨c14, _ | ⟨c15, _ | ⟨c16, _ | ⟨c17, _ |
    ⟨c18, _ | ⟨c19, rest⟩⟩⟩⟩⟩⟩⟩⟩⟩⟩⟩⟩⟩⟩⟩⟩⟩⟩⟩ <;> first
    | rfl
    | (simp only [List.length_cons] at h; omega)

theorem isoTest_false_of_no_T (l : List Char) (h : 'T' ∉ l) : isoTest l = false := by
  rcases l with _ | ⟨c1, _ | ⟨c2, _ | ⟨c3, _ | ⟨c4, _ | ⟨c5, _ | ⟨c6, _ | ⟨c7, _ | ⟨c8, _ |
    ⟨c9, _ | ⟨c10, _ | ⟨c11, _ | ⟨c12, _ | ⟨c13, _ | ⟨c14, _ | ⟨c15, _ | ⟨c16, _ | ⟨c17, _ |
    ⟨c18, _ | ⟨c19, rest⟩⟩⟩⟩⟩⟩⟩⟩⟩⟩⟩⟩⟩⟩⟩⟩⟩⟩⟩ <;> try rfl
  have hT : (c11 == 'T') = false := by
    have hne : c11 ≠ 'T' := fun he => h (by rw [← he]; simp)
    simpa using hne
  simp [isoTest, hT]

theorem digitChar_isDigit {m : Nat} (h : m < 10) : (Nat.digitChar m).isDigit = true := by
  interval_cases m <;> decide

theorem toDigitsCore_digits (fuel : Nat) :
    ∀ (n : Nat) (ds : List Char), (∀ c ∈ ds, c.isDigit = true) →
      ∀ c ∈ Nat.toDigitsCore 10 fuel n ds, c.isDigit = true := by
  induction fuel with
  | zero => exact fun n ds h c hc => h c hc
  | succ fuel ih =>
    intro n ds h c hc
    simp only [Nat.toDigitsCore] at hc
    have hd : ∀ x ∈ Nat.digitChar (n % 10) :: ds, x.isDigit = true := by
      intro x hx
      rcases List.mem_cons.mp hx with rfl | hx
      · exact digitChar_isDigit (Nat.mod_lt n (by norm_num))
      · exact h x hx
    by_cases h0 : n / 10 = 0
    · rw [if_pos h0] at hc
      exact hd c hc
    · rw [if_neg h0] at hc
      exact ih (n / 10) _ hd c hc

theorem natRepr_digits (n : Nat) : ∀ c ∈ (Nat.repr n).data, c.isDigit = true :=
  toDigitsCore_digits (n + 1) n [] (by simp)

theorem intToString_chars (n : Int) : ∀ c ∈ (toString n).data, c.isDigit = true ∨ c = '-' := by
  cases n with
  | ofNat m => exact fun c hc => Or.inl (natRepr_digits m c hc)
  | negSucc m =>
    intro c hc
    rw [show (toString (Int.negSucc m)).data = '-' :: (Nat.repr (m + 1)).data from rfl] at hc
    rcases List.mem_cons.mp hc with rfl | hc
    · exact Or.inr rfl
    · exact Or.inl (natRepr_digits (m + 1) c hc)

theorem toString_int_no_T (n : Int) : 'T' ∉ (toString n).data := by
  intro hm
  rcases intToString_chars n 'T' hm with hd | hd
  · exact absurd hd (by decide)
  · exact absurd hd (by decide)

theorem toString_int_no_space (n : Int) : ' ' ∉ (toString n).data := by
  intro hm
  rcases intToString_chars n ' ' hm with hd | hd
  · exact absurd hd (by decide)
  · exact absurd hd (by decide)

theorem formatCellValue_string_of_benign (o : String) (hiso : isISOTimestamp o = false)
    (hlen : o.length ≤ 40) : formatCellValue (.vStr o) = o := by
  simp [formatCellValue, isISOValue, hiso, jsString, MAX_VALUE_LENGTH, Nat.not_lt.mpr hlen]

theorem formatCellValue_num (n : Int) : formatCellValue (.vNum n) =
    if 40 < (toString n).length then jsSlice (toString n) 37 ++ "..." else toString n := by
  simp [formatCellValue, isISOValue, jsString, MAX_VALUE_LENGTH]

theorem data_length_eq (s : String) : s.data.length = s.length := rfl

theorem toList_length_eq (s : String) : s.toList.length = s.length := rfl

theorem formatCellValue_long_string (s : String) (hiso : isISOTimestamp s = false)
    (hl : 40 < s.length) : formatCellValue (.vStr s) = jsSlice s 37 ++ "..." := by
  simp [formatCellValue, isISOValue, hiso, jsString, MAX_VALUE_LENGTH, if_pos hl]

theorem formatCellValue_idem (v : Value) (hs : v.isScalar = true) :
    formatCellValue (.vStr (formatCellValue v)) = formatCellValue v := by
  cases v with
  | vArr xs => exact absurd hs (by simp [Value.isScalar])
  | vObj fs => exact absurd hs (by simp [Value.isScalar])
  | vNull => decide
  | vUndef => decide
  | vBool b => cases b <;> decide
  | vNum n =>
    rw [formatCellValue_num n]
    by_cases hl : 40 < (toString n).length
    · rw [if_pos hl]
      apply formatCellValue_string_of_benign
      · apply isoTest_false_of_no_T
        intro hm
        rw [show (jsSlice (toString n) 37 ++ "...").toList =
            (toString n).data.take 37 ++ "...".data from rfl] at hm
        rcases List.mem_append.mp hm with hm | hm
        · exact toString_int_no_T n (List.take_subset 37 _ hm)
        · simp at hm
      · rw [String.length_append, length_jsSlice, Nat.min_eq_left (by omega)]
        decide
    · rw [if_neg hl]
      apply formatCellValue_string_of_benign
      · exact isoTest_false_of_no_T _ (toString_int_no_T n)
      · omega
  | vStr s =>
    by_cases hiso : isISOTimestamp s = true
    · have ho : formatCellValue (.vStr s) = jsSlice s 10 := by
        simp [formatCellValue, isISOValue, hiso, jsString, compressTimestamp]
      rw [ho]
      apply formatCellValue_string_of_benign
      · apply isoTest_false_of_short
        have h1 := length_jsSlice s 10
        have h2 := toList_length_eq (jsSlice s 10)
        omega
      · have h1 := length_jsSlice s 10
        omega
    · have hiso' : isISOTimestamp s = false := Bool.eq_false_iff.mpr hiso
      by_cases hl : 40 < s.length
      · rw [formatCellValue_long_string s hiso' hl]
        apply formatCellValue_string_of_benign
        · show isoTest (jsSlice s 37 ++ "...").toList = false
          rw [show (jsSlice s 37 ++ "...").toList = s.data.take 37 ++ "...".data from rfl]
          rw [isoTest_take19,
            List.take_append_of_le_length
              (by rw [List.length_take]; have := data_length_eq s; omega),
            List.take_take, show min 19 37 = 19 from rfl, ← isoTest_take19]
          exact hiso'
        · rw [String.length_append, length_jsSlice, Nat.min_eq_left (by omega)]
          decide
      · have hben := formatCellValue_string_of_benign s hiso' (by omega)
        rw [hben]
        exact hben

theorem contains_space_quoted (x : String) (h : x.toList.contains ' ' = true) :
    ("\"" ++ x ++ "\"").toList.contains ' ' = true := by
  have hm : ' ' ∈ x.data := List.mem_of_elem_eq_true h
  apply List.elem_eq_true_of_mem
  rw [show ("\"" ++ x ++ "\"").toList = ('"' :: x.data) ++ ['"'] from rfl]
  exact List.mem_append.mpr (Or.inl (List.mem_cons_of_mem _ hm))

theorem formatValue_string_of_short_no_space (s : String) (hlen : s.length ≤ 80)
    (hsp : s.toList.contains ' ' = false) : formatValue (.vStr s) = s := by
  have hsp' : ' ' ∉ s.data := not_mem_of_contains_eq_false hsp
  simp [formatValue, MAX_STRING_LENGTH, Nat.not_lt.mpr hlen, hsp, hsp']

theorem formatValue_idem_string (s : String)
    (hsp : (formatValue (.vStr s)).toList.contains ' ' = false) :
    formatValue (.vStr (formatValue (.vStr s))) = formatValue (.vStr s) := by
  by_cases hl : 80 < s.length
  · have ht : formatValue (.vStr s) =
        (if (jsSlice s 80 ++ "...").toList.contains ' ' then
          "\"" ++ (jsSlice s 80 ++ "...") ++ "\""
        else jsSlice s 80 ++ "...") := by
      simp only [formatValue, MAX_STRING_LENGTH, if_pos hl]
    by_cases hts : (jsSlice s 80 ++ "...").toList.contains ' ' = true
    · exfalso
      have ho : formatValue (.vStr s) = "\"" ++ (jsSlice s 80 ++ "...") ++ "\"" := by
        rw [ht, if_pos hts]
      rw [ho, contains_space_quoted _ hts] at hsp
      cases hsp
    · have hts' : (jsSlice s 80 ++ "...").toList.contains ' ' = false :=
        Bool.eq_false_iff.mpr hts
      have ho : formatValue (.vStr s) = jsSlice s 80 ++ "..." := by
        rw [ht, if_neg (by rw [hts']; exact Bool.false_ne_true)]
      rw [ho]
      have hlen83 : (jsSlice s 80 ++ "...").length = 83 := by
        rw [String.length_append, length_jsSlice,
          Nat.min_eq_left (by have := data_length_eq s; omega)]
        decide
      have hcollapse : jsSlice (jsSlice s 80 ++ "...") 80 = jsSlice s 80 := by
        unfold jsSlice
        congr 1
        rw [show (((s.toList.take 80).asString ++ "...") : String).toList =
            s.data.take 80 ++ "...".data from rfl]
        rw [List.take_append_of_le_length
          (by rw [List.length_take]; have := data_length_eq s; omega)]
        exact List.take_of_length_le (by rw [List.length_take]; have := data_length_eq s; omega)
      have hl3 : 80 < (jsSlice s 80 ++ "...").length := by rw [hlen83]; omega
      have ht2 : formatValue (.vStr (jsSlice s 80 ++ "...")) =
          (if (jsSlice (jsSlice s 80 ++ "...") 80 ++ "...").toList.contains ' ' then
            "\"" ++ (jsSlice (jsSlice s 80 ++ "...") 80 ++ "...") ++ "\""
          else jsSlice (jsSlice s 80 ++ "...") 80 ++ "...") := by
        simp only [formatValue, MAX_STRING_LENGTH, if_pos hl3]
      rw [ht2, hcollapse, if_neg (by rw [hts']; exact Bool.false_ne_true)]
  · by_cases hs : s.toList.contains ' ' = true
    · exfalso
      have ho : formatValue (.vStr s) = "\"" ++ s ++ "\"" := by
        simp only [formatValue, MAX_STRING_LENGTH, if_neg hl, if_pos hs]
      rw [ho, contains_space_quoted _ hs] at hsp
      cases hsp
    · have hs' : s.toList.contains ' ' = false := Bool.eq_false_iff.mpr hs
      have ho := formatValue_string_of_short_no_space s (by omega) hs'
      rw [ho]
      exact ho

theorem formatValue_idem_num (n : Int) (hlen : (toString n).length ≤ 80) :
    formatValue (.vStr (formatValue (.vNum n))) = formatValue (.vNum n) := by
  have ho : formatValue (.vNum n) = toString n := by simp [formatValue, jsString]
  rw [ho]
  exact formatValue_string_of_short_no_space _ hlen
    (contains_eq_false_of_not_mem (toString_int_no_space n))

/-- C5 counterexample: the compact normalizer is not idempotent — a string
containing a space gets re-quoted on the second pass. -/
theorem C5_counterexample :
    formatValue (.vStr (formatValue (.vStr "a b"))) ≠ formatValue (.vStr "a b") := by
  decide

/-- C5 amended: the table-cell normalizer is idempotent on every scalar;
the compact normalizer is idempotent on scalars only when no space-quoting
is involved: on any string whose rendering contains no space, on booleans,
null and undefined, and on numbers rendering to at most 80 characters
(the source never truncates a number, so re-feeding a longer rendering
would truncate). -/
theorem C5_amended_idempotence :
    (∀ v : Value, v.isScalar = true →
      formatCellValue (.vStr (formatCellValue v)) = formatCellValue v) ∧
    (∀ s : String, (formatValue (.vStr s)).toList.contains ' ' = false →
      formatValue (.vStr (formatValue (.vStr s))) = formatValue (.vStr s)) ∧
    (∀ n : Int, (toString n).length ≤ 80 →
      formatValue (.vStr (formatValue (.vNum n))) = formatValue (.vNum n)) ∧
    (∀ b : Bool, formatValue (.vStr (formatValue (.vBool b))) = formatValue (.vBool b)) ∧
    (formatValue (.vStr (formatValue .vNull)) = formatValue .vNull) ∧
    (formatValue (.vStr (formatValue .vUndef)) = formatValue .vUndef) :=
  ⟨formatCellValue_idem, formatValue_idem_string, formatValue_idem_num,
   fun b => by cases b <;> decide, by decide, by decide⟩

/-- C5 witness: table idempotence at a quoted-looking scalar and compact
idempotence at a space-free string. -/
theorem C5_witness :
    Value.isScalar (.vStr "a b") = true ∧
    formatCellValue (.vStr (formatCellValue (.vStr "a b"))) = formatCellValue (.vStr "a b") ∧
    (formatValue (.vStr "hello")).toList.contains ' ' = false ∧
    formatValue (.vStr (formatValue (.vStr "hello"))) = formatValue (.vStr "hello") :=
  ⟨by decide, C5_amended_idempotence.1 (.vStr "a b") (by decide),
   by decide, C5_amended_idempotence.2.1 "hello" (by decide)⟩

/-- C3 counterexample: with the explicit field list `["customer"]`, an
item whose `customer` field is a nested object renders as a bare
`"  [1] "` line — the dotted leaf `customer.email` does NOT appear,
because the flattened keys are filtered against the top-level names. -/
theorem C3_counterexample :
    formatList "subscriptions" [[("customer", .vObj [("email", .vStr "a@b.co")])]] ⟨1, 10, 1⟩
        ⟨.compact, some ["customer"], false, false, false⟩
      = "subscriptions 1-1/1 page=1\n  [1] " ∧
    jsIncludes
      (formatList "subscriptions" [[("customer", .vObj [("email", .vStr "a@b.co")])]] ⟨1, 10, 1⟩
        ⟨.compact, some ["customer"], false, false, false⟩) "customer.email" = false :=
  ⟨by decide, by decide⟩

/-- C3 amended: with an explicit field list, each compact item line is
`"  [<i>] "` followed by the pairs obtained by flattening the projected
item and then keeping only the entries whose (dotted) key occurs verbatim
in the requested list — so a nested field's dotted leaves appear only if
the dotted names themselves are requested. -/
theorem C3_amended_compact_lines (rt : String) (items : List Obj)
    (page limit totalCount : Int) (fs : List String)
    (h : ¬(totalCount = 0 ∧ items.length = 0)) :
    formatList rt items ⟨page, limit, totalCount⟩ ⟨.compact, some fs, false, false, false⟩ =
      jsJoin "\n"
        ((rt ++ " " ++ toString ((page - 1) * limit + 1) ++ "-" ++
            toString ((page - 1) * limit + 1 + (items.length : Int) - 1) ++ "/" ++
            toString totalCount ++ " page=" ++ toString page) ::
          (items.enum.map (fun p => "  [" ++ toString (p.1 + 1) ++ "] " ++
            jsJoin " " (((flattenObject (selectFields p.2 (.list fs)) "").filter
              (fun e => fs.contains e.1)).map (fun e => e.1 ++ "=" ++ formatValue e.2))) ++
          (if (page - 1) * limit + 1 + (items.length : Int) - 1 < totalCount then
            ["next: polar " ++ rt ++ " list --page " ++ toString (page + 1) ++ " --limit " ++
              toString limit]
          else []))) := by
  have hfl : formatList rt items ⟨page, limit, totalCount⟩
        ⟨.compact, some fs, false, false, false⟩ =
      formatCompactList rt
        ⟨items.map (fun item => selectFields item (.list fs)), ⟨page, limit, totalCount⟩⟩
        (some fs) := rfl
  rw [hfl, compactList_layout rt _ page limit totalCount (some fs)
    (by rw [List.length_map]; exact h)]
  rw [List.length_map, List.enum_map, List.map_map]
  rfl

/-- C3 witness: the amended line shape at a plain two-item list whose
requested field is scalar, including a next hint. -/
theorem C3_witness :
    formatList "things" [[("id", .vStr "p1")], [("id", .vStr "p2")]] ⟨1, 2, 5⟩
        ⟨.compact, some ["id"], false, false, false⟩ =
      "things 1-2/5 page=1\n  [1] id=p1\n  [2] id=p2\nnext: polar things list --page 2 --limit 2" :=
  (C3_amended_compact_lines "things" [[("id", .vStr "p1")], [("id", .vStr "p2")]] 1 2 5 ["id"]
    (by decide)).trans (by decide)

end Polar
